import Mathlib

/-!
# Verification of the legacy-office-converter service

A shallow embedding of `src/main.py`: a small HTTP service that converts
legacy Office documents (.doc/.xls/.ppt) to modern formats by shelling out
to an external headless converter binary.

The filesystem is modelled as finite lists of directory and file paths, a
path being its list of components.  The external subprocess is modelled by
an environment value describing how the process would behave (how long it
runs, its exit code and diagnostics, or the fault raised while starting it)
together with the set of files the external tool deposits on disk.  Python
exceptions are modelled with `Except` / explicit fault constructors; a
Python function that cannot raise is embedded as a total Lean function.
-/

namespace LegacyOffice

/-- A filesystem path, as its list of components. -/
abbrev FPath := List String

/-- The filesystem: the sets (as lists) of existing directories and regular
files.  `tempfile.mkdtemp`, `write_bytes`, `unlink`, `rmdir` and `glob` act
on this state. -/
structure FS where
  dirs : List FPath
  files : List FPath
deriving DecidableEq

/-- The empty disk. -/
def emptyFS : FS := ⟨[], []⟩

/-- `Path.exists()`: true when the path names an existing file or directory. -/
def FS.pathExists (fs : FS) (p : FPath) : Bool :=
  fs.files.contains p || fs.dirs.contains p

/-- No entry (file or directory) of `fs` lies at or below directory `d`. -/
def FS.noEntryUnder (fs : FS) (d : FPath) : Bool :=
  (fs.files ++ fs.dirs).all (fun p => !(d.isPrefixOf p))

/-! ## Python string and path helpers (`str.lower`, `PurePath.name/.stem/.suffix`) -/

/-- ASCII lowercasing of one character, as `str.lower` does on ASCII input. -/
def lowerChar (c : Char) : Char :=
  match c with
  | 'A' => 'a' | 'B' => 'b' | 'C' => 'c' | 'D' => 'd' | 'E' => 'e'
  | 'F' => 'f' | 'G' => 'g' | 'H' => 'h' | 'I' => 'i' | 'J' => 'j'
  | 'K' => 'k' | 'L' => 'l' | 'M' => 'm' | 'N' => 'n' | 'O' => 'o'
  | 'P' => 'p' | 'Q' => 'q' | 'R' => 'r' | 'S' => 's' | 'T' => 't'
  | 'U' => 'u' | 'V' => 'v' | 'W' => 'w' | 'X' => 'x' | 'Y' => 'y'
  | 'Z' => 'z' | c => c

/-- `str.lower()` (restricted to ASCII case folding). -/
def lowerStr (s : String) : String :=
  String.mk (s.toList.map lowerChar)

/-- Split a character list on a separator character. -/
def splitOnChar (sep : Char) : List Char → List (List Char)
  | [] => [[]]
  | c :: cs =>
      match splitOnChar sep cs with
      | [] => [[]]
      | r :: rs => if c = sep then [] :: r :: rs else (c :: r) :: rs

/-- `PurePath(s).name`: the final nonempty path component of `s`. -/
def pathName (s : String) : String :=
  match ((splitOnChar '/' s.toList).filter (fun c => !c.isEmpty)).getLast? with
  | some cs => String.mk cs
  | none => ""

/-- The index of the last `'.'` in a character list (`str.rfind('.')`),
or `none` when there is no dot. -/
def lastDotPos (cs : List Char) : Option Nat :=
  ((List.range cs.length).filter (fun i => cs.getD i ' ' = '.')).getLast?

/-- `PurePath(s).suffix`: the final extension of the last component,
nonempty only when the last dot is neither the first nor the last
character of the component. -/
def pySuffix (s : String) : String :=
  let cs := (pathName s).toList
  match lastDotPos cs with
  | none => ""
  | some i => if 0 < i ∧ i + 1 < cs.length then String.mk (cs.drop i) else ""

/-- `PurePath(s).stem`: the last component with `pySuffix` stripped. -/
def pyStem (s : String) : String :=
  let cs := (pathName s).toList
  match lastDotPos cs with
  | none => String.mk cs
  | some i => if 0 < i ∧ i + 1 < cs.length then String.mk (cs.take i) else String.mk cs

/-- `Path.name` of an embedded path: its last component. -/
def fpName (p : FPath) : String := p.getLast?.getD ""

/-- `Path.stem` of an embedded path. -/
def fpStem (p : FPath) : String := pyStem (fpName p)

/-! ## Process-wide constants of `main.py` -/

/-- `FORMAT_MAPPING`: legacy extension to modern extension. -/
def FORMAT_MAPPING : List (String × String) :=
  [(".doc", ".docx"), (".xls", ".xlsx"), (".ppt", ".pptx")]

/-- `LIBREOFFICE_FILTERS`: modern extension to the converter's format name. -/
def LIBREOFFICE_FILTERS : List (String × String) :=
  [(".docx", "docx"), (".xlsx", "xlsx"), (".pptx", "pptx")]

/-- Python dict lookup `m.get(k)` over an association list. -/
def dictLookup (m : List (String × String)) (k : String) : Option String :=
  (m.find? (fun e => e.1 == k)).map (fun e => e.2)

/-! ## Subprocess model -/

/-- How the external process would behave if started: it runs for some
duration and exits with a code and diagnostics, or starting it raises a
fault (e.g. `FileNotFoundError` for a missing binary). -/
inductive ProcBehavior where
  | runsFor (duration : Nat) (returncode : Int) (stderr : String)
  | fault (msg : String)
deriving DecidableEq

/-- The outcome observed by `subprocess.run(..., timeout := t)`:
the process completed within the timeout, the wait timed out
(`subprocess.TimeoutExpired`), or an exception was raised. -/
inductive ProcOutcome where
  | completed (returncode : Int) (stderr : String)
  | timedOut
  | raised (msg : String)
deriving DecidableEq

/-- `subprocess.run` with a wall-clock timeout. -/
def runProc (timeout : Nat) (b : ProcBehavior) : ProcOutcome :=
  match b with
  | .runsFor d rc err => if timeout < d then .timedOut else .completed rc err
  | .fault m => .raised m

/-- The conversion subprocess timeout used by `convert_with_libreoffice`. -/
def CONVERSION_TIMEOUT : Nat := 60

/-- The probe subprocess timeout used by `is_libreoffice_available`. -/
def PROBE_TIMEOUT : Nat := 5

/-- Environment of one converter invocation: the subprocess behavior plus
the files the external tool deposits on disk while running. -/
structure ConvertEnv where
  behavior : ProcBehavior
  written : List FPath
deriving DecidableEq

/-! ## `convert_with_libreoffice` (src/main.py lines 49-98) -/

/-- `convert_with_libreoffice(input_path, output_dir, output_format)`.

Runs the converter with a 60-unit timeout.  A non-zero exit code, a
timeout, or any raised fault yields `none`; on a zero exit code the
expected output `<input stem>.<output_format>` must exist in `output_dir`,
otherwise `none`.  The Python function catches every exception and returns
`None`, so the embedding is a total function into `Option`; the returned
`FS` reflects the files the external tool wrote. -/
def convert_with_libreoffice (env : ConvertEnv) (input_path : FPath)
    (output_dir : FPath) (output_format : String) (fs : FS) :
    Option FPath × FS :=
  let fs' : FS := { fs with files := fs.files ++ env.written }
  match runProc CONVERSION_TIMEOUT env.behavior with
  | .raised _ => (none, fs')
  | .timedOut => (none, fs')
  | .completed rc _stderr =>
      if rc ≠ 0 then (none, fs')
      else
        let expected_name := fpStem input_path ++ "." ++ output_format
        let output_path := output_dir ++ [expected_name]
        if fs'.pathExists output_path then (some output_path, fs')
        else (none, fs')

/-! ## `is_libreoffice_available` (src/main.py lines 35-46) -/

/-- `is_libreoffice_available()`: probes the binary with `--help` under a
5-unit timeout; true exactly when the process completes with exit code 0.
Every exception is caught (`TimeoutExpired`, `FileNotFoundError`, any
other), so the embedding is total; the probe never touches the
filesystem, which is threaded through unchanged. -/
def is_libreoffice_available (behavior : ProcBehavior) (fs : FS) : Bool × FS :=
  match runProc PROBE_TIMEOUT behavior with
  | .completed rc _ => (rc == 0, fs)
  | .timedOut => (false, fs)
  | .raised _ => (false, fs)

/-! ## Health surface (src/main.py lines 101-108 and 183-192) -/

/-- The JSON body returned by `GET /`. -/
structure RootResponse where
  status : String
  service : String
  supported_formats : List String
deriving DecidableEq

/-- `root()`: always answers 200 with a status derived from the probe and
the static list of supported legacy extensions. -/
def root (behavior : ProcBehavior) (fs : FS) : RootResponse × FS :=
  let r := is_libreoffice_available behavior fs
  ({ status := if r.1 then "healthy" else "unhealthy",
     service := "Legacy Office Converter",
     supported_formats := FORMAT_MAPPING.map (fun e => e.1) }, r.2)

/-- The response of `GET /health`: a plain 200 acknowledgment, or an
`HTTPException` with a structured detail object. -/
inductive HealthResponse where
  | ok (status_code : Nat) (status : String)
  | err (status_code : Nat) (detail_status : String) (detail_reason : String)
deriving DecidableEq

/-- `health()`: 503 with structured detail when the probe fails, otherwise
200 with body status "healthy". -/
def health (behavior : ProcBehavior) (fs : FS) : HealthResponse × FS :=
  let r := is_libreoffice_available behavior fs
  if r.1 then (.ok 200 "healthy", r.2)
  else (.err 503 "unhealthy" "LibreOffice binary not responding", r.2)

/-! ## Filesystem operations used by the handler's cleanup -/

/-- `temp_dir.glob("*")`: the entries (files or directories) lying exactly
one component below `d`, without duplicates. -/
def FS.globStar (fs : FS) (d : FPath) : List FPath :=
  ((fs.files ++ fs.dirs).filter
    (fun p => p.length == d.length + 1 && d.isPrefixOf p)).dedup

/-- `Path.unlink()`: removes a regular file; raises when the path is a
directory or does not exist. -/
def FS.unlink (fs : FS) (p : FPath) : Except String FS :=
  if fs.files.contains p then
    .ok { fs with files := fs.files.filter (fun q => q != p) }
  else if fs.dirs.contains p then
    .error "IsADirectoryError"
  else
    .error "FileNotFoundError"

/-- `Path.rmdir()`: removes a directory; raises when it does not exist or
still has entries below it. -/
def FS.rmdir (fs : FS) (d : FPath) : Except String FS :=
  if !(fs.dirs.contains d) then
    .error "FileNotFoundError"
  else if (fs.files ++ fs.dirs).any (fun p => d.isPrefixOf p && p != d) then
    .error "OSError: Directory not empty"
  else
    .ok { fs with dirs := fs.dirs.filter (fun q => q != d) }

/-- `for f in entries: f.unlink()`: unlink each entry in turn, stopping at
the first failure; returns the filesystem as far as deletion got together
with the fault message when one was raised. -/
def unlinkEach : FS → List FPath → FS × Option String
  | fs, [] => (fs, none)
  | fs, p :: rest =>
      match fs.unlink p with
      | .ok fs' => unlinkEach fs' rest
      | .error e => (fs, some e)

/-- The cleanup block of `convert_file`:
`for f in temp_dir.glob("*"): f.unlink()` followed by `temp_dir.rmdir()`.
The second component reports the fault raised during cleanup, if any. -/
def cleanupTemp (fs : FS) (d : FPath) : FS × Option String :=
  match unlinkEach fs (fs.globStar d) with
  | (fs', some e) => (fs', some e)
  | (fs', none) =>
      match fs'.rmdir d with
      | .ok fs'' => (fs'', none)
      | .error e => (fs', some e)

/-! ## `POST /convert` (src/main.py lines 111-180) -/

/-- The HTTP-visible result of `convert_file`: a streamed attachment, an
`HTTPException`, or an uncaught fault escaping the handler (an exception
raised inside a cleanup block propagates unhandled). -/
inductive ConvertResponse where
  | fileAttachment (path : FPath) (filename : String) (media_type : String)
  | httpError (status_code : Nat) (detail : String)
  | raisedFault (msg : String)
deriving DecidableEq

/-- Whether a response is an `HTTPException` (any status). -/
def ConvertResponse.isHttpError : ConvertResponse → Bool
  | .httpError _ _ => true
  | _ => false

/-- The 400 detail string of `convert_file`. -/
def unsupportedFormatDetail : String :=
  "Unsupported file format. Supported formats: " ++
    String.intercalate ", " (FORMAT_MAPPING.map (fun e => e.1))

/-- The 500 detail string for a failed conversion. -/
def conversionFailedDetail : String :=
  "Conversion failed. Please check if the file is valid."

/-- Environment of one `/convert` request: the fresh directory name chosen
by `tempfile.mkdtemp()`, the random id from `uuid.uuid4()`, whether
reading/staging the upload raises, and the converter invocation
environment. -/
structure HandlerEnv where
  tmpdir : FPath
  uuid : String
  readFault : Option String
  conv : ConvertEnv
deriving DecidableEq

/-- An `except` block of `convert_file`: run the cleanup, then re-raise the
`HTTPException` with the given status and detail — unless the cleanup
itself raised, in which case that fault propagates instead. -/
def failWith (status : Nat) (detail : String) (fs : FS) (temp_dir : FPath) :
    ConvertResponse × FS :=
  match cleanupTemp fs temp_dir with
  | (fs', none) => (.httpError status detail, fs')
  | (fs', some ce) => (.raisedFault ce, fs')

/-- The staging-and-conversion stage of `convert_file` for a supported
extension: create the scratch directory, write the upload to the
randomized staging name `<uuid><ext>`, and call
`convert_with_libreoffice(input_path, temp_dir, output_format)`. -/
def handlerConversion (env : HandlerEnv) (filename : String) (fs : FS) :
    Option FPath × FS :=
  let file_ext := lowerStr (pySuffix filename)
  let output_ext := (dictLookup FORMAT_MAPPING file_ext).getD ""
  let output_format := (dictLookup LIBREOFFICE_FILTERS output_ext).getD ""
  let temp_dir := env.tmpdir
  let fs1 : FS := { fs with dirs := fs.dirs ++ [temp_dir] }
  let input_path := temp_dir ++ [env.uuid ++ file_ext]
  let fs2 : FS := { fs1 with files := fs1.files ++ [input_path] }
  convert_with_libreoffice env.conv input_path temp_dir output_format fs2

/-- `convert_file(file)`: validate the extension against `FORMAT_MAPPING`
(case-insensitively) before any filesystem side effect; stage and convert;
on failure clean up the scratch directory and answer 500; on success
stream the output as `<original stem><modern ext>` without cleaning up
(the `FileResponse` is returned with `background=None`). -/
def convert_file (env : HandlerEnv) (filename : String) (fs : FS) :
    ConvertResponse × FS :=
  let file_ext := lowerStr (pySuffix filename)
  match dictLookup FORMAT_MAPPING file_ext with
  | none => (.httpError 400 unsupportedFormatDetail, fs)
  | some output_ext =>
      let temp_dir := env.tmpdir
      match env.readFault with
      | some e =>
          failWith 500 ("An error occurred: " ++ e)
            { fs with dirs := fs.dirs ++ [temp_dir] } temp_dir
      | none =>
          match handlerConversion env filename fs with
          | (none, fs') => failWith 500 conversionFailedDetail fs' temp_dir
          | (some p, fs') =>
              if fs'.pathExists p then
                (.fileAttachment p (pyStem filename ++ output_ext)
                  "application/octet-stream", fs')
              else failWith 500 conversionFailedDetail fs' temp_dir


/-! ## Auxiliary lemmas about the filesystem model -/

lemma noEntryUnder_iff (fs : FS) (d : FPath) :
    fs.noEntryUnder d = true ↔ ∀ p ∈ fs.files ++ fs.dirs, ¬ d <+: p := by
  rw [FS.noEntryUnder, List.all_eq_true]
  apply forall_congr'
  intro p
  apply imp_congr Iff.rfl
  rw [Bool.not_eq_true', ← Bool.not_eq_true, List.isPrefixOf_iff_prefix]

lemma mem_globStar {fs : FS} {d p : FPath} :
    p ∈ fs.globStar d ↔
      p ∈ fs.files ++ fs.dirs ∧ p.length = d.length + 1 ∧ d <+: p := by
  rw [FS.globStar, List.mem_dedup, List.mem_filter]
  apply and_congr Iff.rfl
  rw [Bool.and_eq_true, List.isPrefixOf_iff_prefix]
  simp

lemma unlink_of_mem {fs : FS} {p : FPath} (h : p ∈ fs.files) :
    fs.unlink p = .ok { fs with files := fs.files.filter (fun q => q != p) } := by
  simp [FS.unlink, h]

lemma unlinkEach_ok : ∀ (entries : List FPath) (fs : FS),
    entries.Nodup → (∀ p ∈ entries, p ∈ fs.files) →
    unlinkEach fs entries =
      ({ fs with files := fs.files.filter (fun q => !(entries.contains q)) }, none)
  | [], fs, _, _ => by
      simp [unlinkEach]
  | p :: rest, fs, hnd, hsub => by
      have hp : p ∈ fs.files := hsub p (by simp)
      have step : unlinkEach fs (p :: rest) =
          unlinkEach { fs with files := fs.files.filter (fun q => q != p) } rest := by
        rw [unlinkEach, unlink_of_mem hp]
      rw [step]
      have hpnotin : p ∉ rest := (List.nodup_cons.mp hnd).1
      have hsub' : ∀ q ∈ rest, q ∈ (fs.files.filter (fun q => q != p)) := by
        intro q hq
        refine List.mem_filter.mpr ⟨hsub q (by simp [hq]), ?_⟩
        have : q ≠ p := fun he => hpnotin (he ▸ hq)
        simpa using this
      rw [unlinkEach_ok rest _ (List.Nodup.of_cons hnd) hsub']
      have hl : List.filter (fun q => !(rest.contains q))
            (List.filter (fun q => q != p) fs.files) =
          List.filter (fun q => !((p :: rest).contains q)) fs.files := by
        rw [List.filter_filter]
        apply List.filter_congr
        intro a _
        by_cases hap : a = p
        · subst hap; simp
        · simp [hap]
      rw [hl]

lemma rmdir_ok {fs : FS} {d : FPath} (hd : d ∈ fs.dirs)
    (hnone : ∀ p ∈ fs.files ++ fs.dirs, d <+: p → p = d) :
    fs.rmdir d = .ok { fs with dirs := fs.dirs.filter (fun q => q != d) } := by
  have hany : (fs.files ++ fs.dirs).any (fun p => d.isPrefixOf p && p != d) = false := by
    rw [List.any_eq_false]
    intro p hp hc
    rw [Bool.and_eq_true] at hc
    have := hnone p hp (List.isPrefixOf_iff_prefix.mp hc.1)
    simp [this] at hc
  simp [FS.rmdir, hd, hany]

lemma rmdir_nonempty {fs : FS} {d : FPath} (hd : d ∈ fs.dirs)
    (hne : ∃ p ∈ fs.files ++ fs.dirs, d <+: p ∧ p ≠ d) :
    fs.rmdir d = .error "OSError: Directory not empty" := by
  have hany : (fs.files ++ fs.dirs).any (fun p => d.isPrefixOf p && p != d) = true := by
    rw [List.any_eq_true]
    rcases hne with ⟨p, hp, hpre, hpd⟩
    refine ⟨p, hp, ?_⟩
    simp [List.isPrefixOf_iff_prefix, hpre, hpd]
  simp [FS.rmdir, hd, hany]

lemma cleanupTemp_eq_of {fs fs1 : FS} {d : FPath}
    (h1 : unlinkEach fs (fs.globStar d) = (fs1, none)) :
    cleanupTemp fs d =
      match fs1.rmdir d with
      | .ok fs2 => (fs2, none)
      | .error e => (fs1, some e) := by
  rw [cleanupTemp, h1]

lemma cleanupTemp_ok (fs : FS) (d : FPath)
    (hfiles : ∀ p ∈ fs.files, d <+: p → p.length = d.length + 1)
    (hdirs : ∀ p ∈ fs.dirs, d <+: p → p = d)
    (hd : d ∈ fs.dirs) :
    ∃ fs', cleanupTemp fs d = (fs', none) ∧ fs'.noEntryUnder d = true := by
  have hsubE : ∀ p ∈ fs.globStar d, p ∈ fs.files := by
    intro p hp
    rcases mem_globStar.mp hp with ⟨hmem, hlen, hpre⟩
    rcases List.mem_append.mp hmem with h | h
    · exact h
    · exact absurd (hdirs p h hpre) (by intro he; rw [he] at hlen; omega)
  have hnd : (fs.globStar d).Nodup := List.nodup_dedup _
  have h1 := unlinkEach_ok (fs.globStar d) fs hnd hsubE
  set fs1 : FS :=
    { fs with files := fs.files.filter (fun q => !((fs.globStar d).contains q)) } with hfs1
  have hmem1 : ∀ p : FPath, p ∈ fs1.files → p ∈ fs.files ∧ p ∉ fs.globStar d := by
    intro p hp
    have := List.mem_filter.mp hp
    simpa using this
  have hnotunder1 : ∀ p ∈ fs1.files, ¬ d <+: p := by
    intro p hp hpre
    rcases hmem1 p hp with ⟨hpf, hpg⟩
    exact hpg (mem_globStar.mpr
      ⟨List.mem_append.mpr (Or.inl hpf), hfiles p hpf hpre, hpre⟩)
  have hd1 : d ∈ fs1.dirs := hd
  have hnone1 : ∀ p ∈ fs1.files ++ fs1.dirs, d <+: p → p = d := by
    intro p hp hpre
    rcases List.mem_append.mp hp with h | h
    · exact absurd hpre (hnotunder1 p h)
    · exact hdirs p h hpre
  rw [cleanupTemp_eq_of h1, rmdir_ok hd1 hnone1]
  refine ⟨_, rfl, ?_⟩
  rw [noEntryUnder_iff]
  intro p hp hpre
  rcases List.mem_append.mp hp with h | h
  · exact hnotunder1 p h hpre
  · rcases List.mem_filter.mp h with ⟨hpd, hne⟩
    have : p ≠ d := by simpa using hne
    exact this (hdirs p hpd hpre)

lemma cleanupTemp_nested_fails (fs : FS) (d : FPath)
    (hdirs : ∀ p ∈ fs.dirs, d <+: p → p = d)
    (hd : d ∈ fs.dirs)
    (hnest : ∃ p ∈ fs.files, d <+: p ∧ d.length + 1 < p.length) :
    ∃ fs', cleanupTemp fs d = (fs', some "OSError: Directory not empty") := by
  have hsubE : ∀ p ∈ fs.globStar d, p ∈ fs.files := by
    intro p hp
    rcases mem_globStar.mp hp with ⟨hmem, hlen, hpre⟩
    rcases List.mem_append.mp hmem with h | h
    · exact h
    · exact absurd (hdirs p h hpre) (by intro he; rw [he] at hlen; omega)
  have hnd : (fs.globStar d).Nodup := List.nodup_dedup _
  have h1 := unlinkEach_ok (fs.globStar d) fs hnd hsubE
  set fs1 : FS :=
    { fs with files := fs.files.filter (fun q => !((fs.globStar d).contains q)) } with hfs1
  rcases hnest with ⟨p0, hp0f, hp0pre, hp0len⟩
  have hp0glob : p0 ∉ fs.globStar d := by
    intro hc
    rcases mem_globStar.mp hc with ⟨_, hlen, _⟩
    omega
  have hp0mem1 : p0 ∈ fs1.files := by
    refine List.mem_filter.mpr ⟨hp0f, ?_⟩
    simpa using hp0glob
  have hne : ∃ p ∈ fs1.files ++ fs1.dirs, d <+: p ∧ p ≠ d := by
    refine ⟨p0, List.mem_append.mpr (Or.inl hp0mem1), hp0pre, ?_⟩
    intro he; rw [he] at hp0len; omega
  have hd1 : d ∈ fs1.dirs := hd
  rw [cleanupTemp_eq_of h1, rmdir_nonempty hd1 hne]
  exact ⟨fs1, rfl⟩

/-! ## Auxiliary lemmas about the converter and the handler -/

lemma convert_with_libreoffice_snd (env : ConvertEnv) (input_path output_dir : FPath)
    (fmt : String) (fs : FS) :
    (convert_with_libreoffice env input_path output_dir fmt fs).2 =
      { fs with files := fs.files ++ env.written } := by
  cases hrp : runProc CONVERSION_TIMEOUT env.behavior with
  | completed rc s =>
      simp only [convert_with_libreoffice, hrp]
      split
      · rfl
      · split <;> rfl
  | timedOut => simp only [convert_with_libreoffice, hrp]
  | raised m => simp only [convert_with_libreoffice, hrp]

lemma convert_some_iff (env : ConvertEnv) (input_path output_dir : FPath)
    (fmt : String) (fs : FS) (p : FPath) :
    (convert_with_libreoffice env input_path output_dir fmt fs).1 = some p ↔
      p = output_dir ++ [fpStem input_path ++ "." ++ fmt] ∧
      (∃ d s, env.behavior = .runsFor d 0 s ∧ d ≤ CONVERSION_TIMEOUT) ∧
      FS.pathExists { fs with files := fs.files ++ env.written }
        (output_dir ++ [fpStem input_path ++ "." ++ fmt]) = true := by
  cases hb : env.behavior with
  | fault m =>
      simp [convert_with_libreoffice, runProc, hb]
  | runsFor d rc s =>
      by_cases hd : CONVERSION_TIMEOUT < d
      · have hrp : runProc CONVERSION_TIMEOUT env.behavior = .timedOut := by
          simp [runProc, hb, hd]
        simp only [convert_with_libreoffice, hrp]
        constructor
        · intro hc; cases hc
        · rintro ⟨_, ⟨d', s', hd', hle⟩, _⟩
          injection hd' with h1 h2 h3
          subst h1
          omega
      · have hrp : runProc CONVERSION_TIMEOUT env.behavior = .completed rc s := by
          simp [runProc, hb, hd]
        by_cases hrc : rc = 0
        · subst hrc
          simp only [convert_with_libreoffice, hrp]
          rw [if_neg (by simp)]
          split
          · rename_i hex
            simp only [Option.some.injEq]
            constructor
            · intro hp
              exact ⟨hp.symm, ⟨d, s, rfl, by omega⟩, hex⟩
            · rintro ⟨hp, _, _⟩
              exact hp.symm
          · rename_i hex
            show (none : Option FPath) = some p ↔ _
            constructor
            · intro hc; cases hc
            · rintro ⟨_, _, hex'⟩
              exact absurd hex' hex
        · simp only [convert_with_libreoffice, hrp]
          rw [if_pos hrc]
          show (none : Option FPath) = some p ↔ _
          constructor
          · intro hc; cases hc
          · rintro ⟨_, ⟨d', s', hd', _⟩, _⟩
            injection hd' with h1 h2 h3
            exact absurd h2 hrc

lemma handlerConversion_snd (env : HandlerEnv) (filename : String) (fs : FS) :
    (handlerConversion env filename fs).2 =
      { dirs := fs.dirs ++ [env.tmpdir],
        files := (fs.files ++ [env.tmpdir ++ [env.uuid ++ lowerStr (pySuffix filename)]])
          ++ env.conv.written } := by
  simp only [handlerConversion, convert_with_libreoffice_snd]

lemma failWith_of_cleanup_none {fs fs' : FS} {d : FPath} {status : Nat} {detail : String}
    (h : cleanupTemp fs d = (fs', none)) :
    failWith status detail fs d = (.httpError status detail, fs') := by
  rw [failWith, h]

lemma failWith_of_cleanup_some {fs fs' : FS} {d : FPath} {status : Nat}
    {detail : String} {e : String} (h : cleanupTemp fs d = (fs', some e)) :
    failWith status detail fs d = (.raisedFault e, fs') := by
  rw [failWith, h]

lemma convert_file_eq_of_unsupported {env : HandlerEnv} {filename : String} {fs : FS}
    (hlk : dictLookup FORMAT_MAPPING (lowerStr (pySuffix filename)) = none) :
    convert_file env filename fs = (.httpError 400 unsupportedFormatDetail, fs) := by
  simp only [convert_file, hlk]

lemma convert_file_eq_of_readFault {env : HandlerEnv} {filename : String} {fs : FS}
    {oext e : String}
    (hlk : dictLookup FORMAT_MAPPING (lowerStr (pySuffix filename)) = some oext)
    (hrf : env.readFault = some e) :
    convert_file env filename fs =
      failWith 500 ("An error occurred: " ++ e)
        { fs with dirs := fs.dirs ++ [env.tmpdir] } env.tmpdir := by
  simp only [convert_file, hlk, hrf]

lemma convert_file_eq_of_supported {env : HandlerEnv} {filename : String} {fs : FS}
    {oext : String}
    (hlk : dictLookup FORMAT_MAPPING (lowerStr (pySuffix filename)) = some oext)
    (hrf : env.readFault = none) :
    convert_file env filename fs =
      match handlerConversion env filename fs with
      | (none, fs') => failWith 500 conversionFailedDetail fs' env.tmpdir
      | (some p, fs') =>
          if fs'.pathExists p then
            (.fileAttachment p (pyStem filename ++ oext) "application/octet-stream", fs')
          else failWith 500 conversionFailedDetail fs' env.tmpdir := by
  simp only [convert_file, hlk, hrf]

lemma convert_file_eq_conv_none {env : HandlerEnv} {filename : String} {fs fs' : FS}
    {oext : String}
    (hlk : dictLookup FORMAT_MAPPING (lowerStr (pySuffix filename)) = some oext)
    (hrf : env.readFault = none)
    (hhc : handlerConversion env filename fs = (none, fs')) :
    convert_file env filename fs = failWith 500 conversionFailedDetail fs' env.tmpdir := by
  simp only [convert_file_eq_of_supported hlk hrf, hhc]

lemma convert_file_eq_conv_some_exists {env : HandlerEnv} {filename : String}
    {fs fs' : FS} {oext : String} {p : FPath}
    (hlk : dictLookup FORMAT_MAPPING (lowerStr (pySuffix filename)) = some oext)
    (hrf : env.readFault = none)
    (hhc : handlerConversion env filename fs = (some p, fs'))
    (hex : fs'.pathExists p = true) :
    convert_file env filename fs =
      (.fileAttachment p (pyStem filename ++ oext) "application/octet-stream", fs') := by
  simp only [convert_file_eq_of_supported hlk hrf, hhc]
  rw [if_pos hex]

lemma convert_file_eq_conv_some_missing {env : HandlerEnv} {filename : String}
    {fs fs' : FS} {oext : String} {p : FPath}
    (hlk : dictLookup FORMAT_MAPPING (lowerStr (pySuffix filename)) = some oext)
    (hrf : env.readFault = none)
    (hhc : handlerConversion env filename fs = (some p, fs'))
    (hex : fs'.pathExists p = false) :
    convert_file env filename fs = failWith 500 conversionFailedDetail fs' env.tmpdir := by
  simp only [convert_file_eq_of_supported hlk hrf, hhc]
  rw [if_neg (by simp [hex])]

lemma prestage_cleanup_ok (env : HandlerEnv) (fs : FS)
    (hfresh : fs.noEntryUnder env.tmpdir = true) :
    ∃ fs2, cleanupTemp { fs with dirs := fs.dirs ++ [env.tmpdir] } env.tmpdir =
        (fs2, none) ∧ fs2.noEntryUnder env.tmpdir = true := by
  have hfr := (noEntryUnder_iff fs env.tmpdir).mp hfresh
  apply cleanupTemp_ok
  · intro p hp hpre
    exact absurd hpre (hfr p (List.mem_append.mpr (Or.inl hp)))
  · intro p hp hpre
    rcases List.mem_append.mp hp with hp | hp
    · exact absurd hpre (hfr p (List.mem_append.mpr (Or.inr hp)))
    · exact List.mem_singleton.mp hp
  · exact List.mem_append.mpr (Or.inr (List.mem_singleton.mpr rfl))

lemma post_stage_cleanup_ok (env : HandlerEnv) (filename : String) (fs : FS)
    (hfresh : fs.noEntryUnder env.tmpdir = true)
    (hflat : ∀ p ∈ env.conv.written,
      env.tmpdir <+: p → p.length = env.tmpdir.length + 1) :
    ∃ fs2, cleanupTemp (handlerConversion env filename fs).2 env.tmpdir = (fs2, none) ∧
      fs2.noEntryUnder env.tmpdir = true := by
  rw [handlerConversion_snd]
  have hfr := (noEntryUnder_iff fs env.tmpdir).mp hfresh
  apply cleanupTemp_ok
  · intro p hp hpre
    rcases List.mem_append.mp hp with hp | hp
    · rcases List.mem_append.mp hp with hp | hp
      · exact absurd hpre (hfr p (List.mem_append.mpr (Or.inl hp)))
      · rw [List.mem_singleton.mp hp]
        simp
    · exact hflat p hp hpre
  · intro p hp hpre
    rcases List.mem_append.mp hp with hp | hp
    · exact absurd hpre (hfr p (List.mem_append.mpr (Or.inr hp)))
    · exact List.mem_singleton.mp hp
  · exact List.mem_append.mpr (Or.inr (List.mem_singleton.mpr rfl))

lemma convert_file_status_cases (env : HandlerEnv) (filename : String) (fs : FS) :
    (convert_file env filename fs = (.httpError 400 unsupportedFormatDetail, fs) ∧
      dictLookup FORMAT_MAPPING (lowerStr (pySuffix filename)) = none) ∨
    ((dictLookup FORMAT_MAPPING (lowerStr (pySuffix filename))).isSome = true ∧
      ((∃ d, (convert_file env filename fs).1 = .httpError 500 d) ∨
       (∃ m, (convert_file env filename fs).1 = .raisedFault m) ∨
       (∃ p fn, (convert_file env filename fs).1 =
          .fileAttachment p fn "application/octet-stream"))) := by
  rcases hlk : dictLookup FORMAT_MAPPING (lowerStr (pySuffix filename)) with _ | oext
  · exact Or.inl ⟨convert_file_eq_of_unsupported hlk, rfl⟩
  · refine Or.inr ⟨rfl, ?_⟩
    rcases hrf : env.readFault with _ | e
    · rcases hhc : handlerConversion env filename fs with ⟨op, fs'⟩
      rcases op with _ | p
      · rcases hct : cleanupTemp fs' env.tmpdir with ⟨fs2, e2⟩
        rcases e2 with _ | ce
        · rw [convert_file_eq_conv_none hlk hrf hhc, failWith_of_cleanup_none hct]
          exact Or.inl ⟨conversionFailedDetail, rfl⟩
        · rw [convert_file_eq_conv_none hlk hrf hhc, failWith_of_cleanup_some hct]
          exact Or.inr (Or.inl ⟨ce, rfl⟩)
      · by_cases hex : fs'.pathExists p = true
        · rw [convert_file_eq_conv_some_exists hlk hrf hhc hex]
          exact Or.inr (Or.inr ⟨p, pyStem filename ++ oext, rfl⟩)
        · have hex' : fs'.pathExists p = false := by
            revert hex; cases fs'.pathExists p <;> simp
          rcases hct : cleanupTemp fs' env.tmpdir with ⟨fs2, e2⟩
          rcases e2 with _ | ce
          · rw [convert_file_eq_conv_some_missing hlk hrf hhc hex',
              failWith_of_cleanup_none hct]
            exact Or.inl ⟨conversionFailedDetail, rfl⟩
          · rw [convert_file_eq_conv_some_missing hlk hrf hhc hex',
              failWith_of_cleanup_some hct]
            exact Or.inr (Or.inl ⟨ce, rfl⟩)
    · rcases hct : cleanupTemp { fs with dirs := fs.dirs ++ [env.tmpdir] } env.tmpdir
        with ⟨fs2, e2⟩
      rcases e2 with _ | ce
      · rw [convert_file_eq_of_readFault hlk hrf, failWith_of_cleanup_none hct]
        exact Or.inl ⟨"An error occurred: " ++ e, rfl⟩
      · rw [convert_file_eq_of_readFault hlk hrf, failWith_of_cleanup_some hct]
        exact Or.inr (Or.inl ⟨ce, rfl⟩)

lemma dictLookup_FM_none_iff (k : String) :
    dictLookup FORMAT_MAPPING k = none ↔
      k ∉ ([".doc", ".xls", ".ppt"] : List String) := by
  by_cases h1 : k = ".doc"
  · subst h1; decide
  by_cases h2 : k = ".xls"
  · subst h2; decide
  by_cases h3 : k = ".ppt"
  · subst h3; decide
  have hfind : List.find? (fun e => e.1 == k) FORMAT_MAPPING = none := by
    rw [List.find?_eq_none]
    intro e he
    simp [FORMAT_MAPPING] at he
    rcases he with he | he | he <;> subst he <;> simp only [beq_iff_eq] <;> intro hc
    · exact h1 hc.symm
    · exact h2 hc.symm
    · exact h3 hc.symm
  constructor
  · intro _
    simp [h1, h2, h3]
  · intro _
    simp [dictLookup, hfind]

/-! ## Concrete request environments used by the concrete instances below -/

/-- A request whose conversion subprocess exits with code 1 and writes
nothing. -/
def envNoWrite : HandlerEnv :=
  { tmpdir := ["tmp", "scratch"], uuid := "u123", readFault := none,
    conv := { behavior := .runsFor 1 1 "err", written := [] } }

/-- A request whose conversion succeeds: the tool exits 0 and deposits the
expected output file in the scratch directory. -/
def envSuccess : HandlerEnv :=
  { tmpdir := ["tmp", "scratch"], uuid := "u123", readFault := none,
    conv := { behavior := .runsFor 1 0 "",
              written := [["tmp", "scratch", "u123.docx"]] } }

/-- A request whose conversion fails after the tool littered a nested entry
inside the scratch directory. -/
def envNested : HandlerEnv :=
  { tmpdir := ["tmp", "scratch"], uuid := "u123", readFault := none,
    conv := { behavior := .runsFor 1 1 "err",
              written := [["tmp", "scratch", "sub", "x"]] } }

/-! ## Claims -/

/-- C2: the Converter Invoker returns the path
`<input file's base name>.<target format>` inside the output directory
exactly when the subprocess exits with code zero within the 60-unit timeout
and that exact file then exists there; in every other case (non-zero exit,
timeout, missing output despite zero exit, or a raised fault such as a
missing binary) it returns `none`.  It never propagates an exception: the
embedding of the Python function, which catches every exception, is a total
function into `Option`. -/
theorem convert_with_libreoffice_contract (env : ConvertEnv)
    (input_path output_dir : FPath) (fmt : String) (fs : FS) (p : FPath) :
    (convert_with_libreoffice env input_path output_dir fmt fs).1 = some p ↔
      p = output_dir ++ [fpStem input_path ++ "." ++ fmt] ∧
      (∃ d s, env.behavior = .runsFor d 0 s ∧ d ≤ CONVERSION_TIMEOUT) ∧
      FS.pathExists { fs with files := fs.files ++ env.written }
        (output_dir ++ [fpStem input_path ++ "." ++ fmt]) = true :=
  convert_some_iff env input_path output_dir fmt fs p

/-- Concrete instance of C2: a zero exit within the timeout and an existing
expected output yield the expected path. -/
theorem convert_with_libreoffice_contract_witness :
    (convert_with_libreoffice ⟨.runsFor 1 0 "", [["out", "test.docx"]]⟩
        ["indir", "test.doc"] ["out"] "docx" emptyFS).1 = some ["out", "test.docx"] :=
  (convert_with_libreoffice_contract ⟨.runsFor 1 0 "", [["out", "test.docx"]]⟩
      ["indir", "test.doc"] ["out"] "docx" emptyFS ["out", "test.docx"]).mpr
    ⟨by decide, ⟨1, "", rfl, by decide⟩, by decide⟩

/-- C6: the Availability Prober returns `true` exactly when the probe
process starts, stays within the 5-unit timeout and exits with code zero;
every other outcome yields `false`.  It never raises (the embedding is a
total function into `Bool`) and performs no file writes: the filesystem is
returned unchanged. -/
theorem is_libreoffice_available_contract (b : ProcBehavior) (fs : FS) :
    ((is_libreoffice_available b fs).1 = true ↔
      ∃ d s, b = .runsFor d 0 s ∧ d ≤ PROBE_TIMEOUT) ∧
    (is_libreoffice_available b fs).2 = fs := by
  constructor
  · cases hb : b with
    | fault m =>
        simp [is_libreoffice_available, runProc]
    | runsFor d rc s =>
        by_cases hd : PROBE_TIMEOUT < d
        · have hrp : runProc PROBE_TIMEOUT (ProcBehavior.runsFor d rc s) =
              .timedOut := by simp [runProc, hd]
          simp only [is_libreoffice_available, hrp]
          constructor
          · intro hc; simp at hc
          · rintro ⟨d', s', hd', hle⟩
            injection hd' with h1 h2 h3
            subst h1
            omega
        · have hrp : runProc PROBE_TIMEOUT (ProcBehavior.runsFor d rc s) =
              .completed rc s := by simp [runProc, hd]
          simp only [is_libreoffice_available, hrp]
          constructor
          · intro hc
            have hrc : rc = 0 := by simpa using hc
            subst hrc
            exact ⟨d, s, rfl, by omega⟩
          · rintro ⟨d', s', hd', hle⟩
            injection hd' with h1 h2 h3
            subst h2
            simp
  · cases hrp : runProc PROBE_TIMEOUT b <;> simp [is_libreoffice_available, hrp]

/-- Concrete instance of C6: a 1-unit run exiting 0 probes available, and
the filesystem is untouched. -/
theorem is_libreoffice_available_contract_witness :
    (is_libreoffice_available (.runsFor 1 0 "help text") emptyFS).1 = true ∧
    (is_libreoffice_available (.runsFor 1 0 "help text") emptyFS).2 = emptyFS :=
  ⟨((is_libreoffice_available_contract (.runsFor 1 0 "help text") emptyFS).1).mpr
      ⟨1, "help text", rfl, by decide⟩,
   (is_libreoffice_available_contract (.runsFor 1 0 "help text") emptyFS).2⟩

/-- C7: `GET /health` answers 200 with body status "healthy" exactly when
the Availability Prober reports success, and a 503 with structured detail
exactly when it reports failure; `GET /` never errors (its embedding is
total into `RootResponse`) and its `supported_formats` field always lists
exactly the three legacy extensions. -/
theorem health_and_root_contract (b : ProcBehavior) (fs : FS) :
    ((health b fs).1 = .ok 200 "healthy" ↔
      (is_libreoffice_available b fs).1 = true) ∧
    ((health b fs).1 = .err 503 "unhealthy" "LibreOffice binary not responding" ↔
      (is_libreoffice_available b fs).1 = false) ∧
    (root b fs).1.supported_formats = [".doc", ".xls", ".ppt"] ∧
    (root b fs).1.service = "Legacy Office Converter" := by
  refine ⟨?_, ?_, rfl, rfl⟩
  · by_cases h : (is_libreoffice_available b fs).1 = true
    · simp [health, h]
    · have h' : (is_libreoffice_available b fs).1 = false := by
        revert h; cases (is_libreoffice_available b fs).1 <;> simp
      simp [health, h']
  · by_cases h : (is_libreoffice_available b fs).1 = true
    · simp [health, h]
    · have h' : (is_libreoffice_available b fs).1 = false := by
        revert h; cases (is_libreoffice_available b fs).1 <;> simp
      simp [health, h']

/-- Concrete instance of C7: with a responsive binary, `/health` answers
200 healthy; with a missing binary, 503 with structured detail. -/
theorem health_and_root_contract_witness :
    (health (.runsFor 1 0 "") emptyFS).1 = .ok 200 "healthy" ∧
    (health (.fault "FileNotFoundError") emptyFS).1 =
      .err 503 "unhealthy" "LibreOffice binary not responding" :=
  ⟨((health_and_root_contract (.runsFor 1 0 "") emptyFS).1).mpr (by decide),
   ((health_and_root_contract (.fault "FileNotFoundError") emptyFS).2.1).mpr (by decide)⟩

/-- C3: an uploaded filename whose lowercased extension is not one of
`.doc`, `.xls`, `.ppt` (including a missing extension, whose suffix is the
empty string) is answered with the 400 error whose message enumerates the
supported legacy extensions, and a filename whose lowercased extension is
one of the three never takes the 400 branch. -/
theorem convert_file_extension_validation (env : HandlerEnv) (filename : String)
    (fs : FS) :
    (lowerStr (pySuffix filename) ∉ ([".doc", ".xls", ".ppt"] : List String) →
      (convert_file env filename fs).1 = .httpError 400 unsupportedFormatDetail) ∧
    (".doc".toList <:+: unsupportedFormatDetail.toList ∧
     ".xls".toList <:+: unsupportedFormatDetail.toList ∧
     ".ppt".toList <:+: unsupportedFormatDetail.toList) ∧
    (lowerStr (pySuffix filename) ∈ ([".doc", ".xls", ".ppt"] : List String) →
      ∀ d, (convert_file env filename fs).1 ≠ .httpError 400 d) := by
  refine ⟨?_, ⟨by decide, by decide, by decide⟩, ?_⟩
  · intro hni
    rw [convert_file_eq_of_unsupported ((dictLookup_FM_none_iff _).mpr hni)]
  · intro hin d
    rcases convert_file_status_cases env filename fs with ⟨_, hnone⟩ | ⟨_, hcases⟩
    · exact absurd hin ((dictLookup_FM_none_iff _).mp hnone)
    · rcases hcases with ⟨d', h'⟩ | ⟨m, h'⟩ | ⟨p, fn, h'⟩
      · rw [h']
        intro hc
        injection hc with h1 h2
        exact absurd h1 (by decide)
      · rw [h']
        intro hc
        exact ConvertResponse.noConfusion hc
      · rw [h']
        intro hc
        exact ConvertResponse.noConfusion hc

/-- Concrete instance of C3: a `.pdf` upload is rejected with the 400
message. -/
theorem convert_file_extension_validation_witness :
    (convert_file envNoWrite "document.pdf" emptyFS).1 =
      .httpError 400 unsupportedFormatDetail :=
  (convert_file_extension_validation envNoWrite "document.pdf" emptyFS).1 (by decide)

/-- C9: a filename that is only a leading dot and a supported suffix, such
as exactly ".doc", has an empty `suffix` in the embedded path semantics and
is rejected with the 400 error, for every environment and filesystem. -/
theorem convert_file_dot_doc_rejected (env : HandlerEnv) (fs : FS) :
    (convert_file env ".doc" fs).1 = .httpError 400 unsupportedFormatDetail := by
  rw [convert_file_eq_of_unsupported (by decide)]

/-- C10: whenever `POST /convert` answers the 400 client error, the
filesystem is returned exactly as it was: extension validation happens
before the scratch directory is created or any file is written. -/
theorem convert_file_400_no_filesystem_change (env : HandlerEnv)
    (filename : String) (fs : FS) :
    ∀ d, (convert_file env filename fs).1 = .httpError 400 d →
      (convert_file env filename fs).2 = fs := by
  intro d h
  rcases convert_file_status_cases env filename fs with ⟨heq, _⟩ | ⟨_, hcases⟩
  · rw [heq]
  · exfalso
    rcases hcases with ⟨d', h'⟩ | ⟨m, h'⟩ | ⟨p, fn, h'⟩
    · rw [h'] at h
      injection h with h1 h2
      exact absurd h1 (by decide)
    · rw [h'] at h
      exact ConvertResponse.noConfusion h
    · rw [h'] at h
      exact ConvertResponse.noConfusion h

/-- Concrete instance of C10: rejecting `document.pdf` leaves the empty
disk empty. -/
theorem convert_file_400_no_filesystem_change_witness :
    (convert_file envNoWrite "document.pdf" emptyFS).2 = emptyFS :=
  convert_file_400_no_filesystem_change envNoWrite "document.pdf" emptyFS
    unsupportedFormatDetail (by decide)

/-- C4: on every successful `POST /convert`, the attachment filename equals
the original uploaded filename with its extension stripped, concatenated
with the modern extension mapped from its legacy extension.  The right-hand
side mentions neither `env.uuid` nor `env.tmpdir`, so the response filename
does not depend on the randomized internal staging name. -/
theorem convert_file_response_filename (env : HandlerEnv) (filename : String)
    (fs : FS) :
    ∀ p fn mt, (convert_file env filename fs).1 = .fileAttachment p fn mt →
      ∃ oext, dictLookup FORMAT_MAPPING (lowerStr (pySuffix filename)) = some oext ∧
        fn = pyStem filename ++ oext := by
  intro p fn mt h
  rcases hlk : dictLookup FORMAT_MAPPING (lowerStr (pySuffix filename)) with _ | oext
  · rw [convert_file_eq_of_unsupported hlk] at h
    exact ConvertResponse.noConfusion h
  · refine ⟨oext, rfl, ?_⟩
    rcases hrf : env.readFault with _ | e
    · rcases hhc : handlerConversion env filename fs with ⟨op, fs'⟩
      rcases op with _ | q
      · rw [convert_file_eq_conv_none hlk hrf hhc] at h
        rcases hct : cleanupTemp fs' env.tmpdir with ⟨fs2, e2⟩
        rcases e2 with _ | ce
        · rw [failWith_of_cleanup_none hct] at h
          exact ConvertResponse.noConfusion h
        · rw [failWith_of_cleanup_some hct] at h
          exact ConvertResponse.noConfusion h
      · by_cases hex : fs'.pathExists q = true
        · rw [convert_file_eq_conv_some_exists hlk hrf hhc hex] at h
          injection h with hp hfn hmt
          exact hfn.symm
        · have hex' : fs'.pathExists q = false := by
            revert hex; cases fs'.pathExists q <;> simp
          rw [convert_file_eq_conv_some_missing hlk hrf hhc hex'] at h
          rcases hct : cleanupTemp fs' env.tmpdir with ⟨fs2, e2⟩
          rcases e2 with _ | ce
          · rw [failWith_of_cleanup_none hct] at h
            exact ConvertResponse.noConfusion h
          · rw [failWith_of_cleanup_some hct] at h
            exact ConvertResponse.noConfusion h
    · rw [convert_file_eq_of_readFault hlk hrf] at h
      rcases hct : cleanupTemp { fs with dirs := fs.dirs ++ [env.tmpdir] } env.tmpdir
        with ⟨fs2, e2⟩
      rcases e2 with _ | ce
      · rw [failWith_of_cleanup_none hct] at h
        exact ConvertResponse.noConfusion h
      · rw [failWith_of_cleanup_some hct] at h
        exact ConvertResponse.noConfusion h

/-- Concrete instance of C4: uploading `test.doc` with a staging id `u123`
yields the attachment name `test.docx`, not the staging name. -/
theorem convert_file_response_filename_witness :
    ∃ oext, dictLookup FORMAT_MAPPING (lowerStr (pySuffix "test.doc")) = some oext ∧
      "test.docx" = pyStem "test.doc" ++ oext :=
  convert_file_response_filename envSuccess "test.doc" emptyFS
    ["tmp", "scratch", "u123.docx"] "test.docx" "application/octet-stream" (by decide)

/-- C5: for a valid upload (supported extension), when the Converter
Invoker returns no result or a path that does not exist on disk, the
handler answers the 500 error with the generic "Conversion failed" detail,
distinct from the 400 client error.  The staging environment is assumed
well-behaved: the scratch directory is fresh, the tool writes only directly
into it, and reading the upload does not fault. -/
theorem convert_file_500_on_conversion_failure (env : HandlerEnv)
    (filename : String) (fs : FS) (oext : String)
    (hlk : dictLookup FORMAT_MAPPING (lowerStr (pySuffix filename)) = some oext)
    (hrf : env.readFault = none)
    (hfresh : fs.noEntryUnder env.tmpdir = true)
    (hflat : ∀ p ∈ env.conv.written,
      env.tmpdir <+: p → p.length = env.tmpdir.length + 1)
    (hfail : (handlerConversion env filename fs).1 = none ∨
      ∃ p, (handlerConversion env filename fs).1 = some p ∧
        ((handlerConversion env filename fs).2).pathExists p = false) :
    (convert_file env filename fs).1 = .httpError 500 conversionFailedDetail ∧
    (convert_file env filename fs).1 ≠ .httpError 400 unsupportedFormatDetail ∧
    "Conversion failed".toList <:+: conversionFailedDetail.toList := by
  obtain ⟨fs2, hct, -⟩ := post_stage_cleanup_ok env filename fs hfresh hflat
  rcases hhc : handlerConversion env filename fs with ⟨op, fs'⟩
  rw [hhc] at hct hfail
  have h500 : (convert_file env filename fs).1 = .httpError 500 conversionFailedDetail := by
    rcases hfail with hf | ⟨p, hp, hex⟩
    · have hop : op = none := hf
      subst hop
      rw [convert_file_eq_conv_none hlk hrf hhc, failWith_of_cleanup_none hct]
    · have hop : op = some p := hp
      subst hop
      rw [convert_file_eq_conv_some_missing hlk hrf hhc hex,
        failWith_of_cleanup_none hct]
  refine ⟨h500, ?_, by decide⟩
  rw [h500]
  intro hc
  injection hc with h1 h2
  exact absurd h1 (by decide)

/-- Concrete instance of C5: a valid `.xls` upload whose converter exits 1
is answered with the 500 "Conversion failed" detail. -/
theorem convert_file_500_on_conversion_failure_witness :
    (convert_file envNoWrite "sheet.xls" emptyFS).1 =
      .httpError 500 conversionFailedDetail :=
  (convert_file_500_on_conversion_failure envNoWrite "sheet.xls" emptyFS ".xlsx"
    (by decide) rfl (by decide) (by simp [envNoWrite]) (Or.inl (by decide))).1

/-- C1 (amended): on every path on which `POST /convert` answers an HTTP
error (client error, conversion failure, or staging fault), the scratch
workspace and everything in it are removed before returning, provided the
workspace directory is fresh and the tool deposits files only directly
inside it.  On a successful conversion, however, the handler performs no
cleanup (`FileResponse` is returned with `background=None`), so the
workspace and its files remain on disk - see the counterexample. -/
theorem convert_file_workspace_cleanup_on_error_paths (env : HandlerEnv)
    (filename : String) (fs : FS)
    (hfresh : fs.noEntryUnder env.tmpdir = true)
    (hflat : ∀ p ∈ env.conv.written,
      env.tmpdir <+: p → p.length = env.tmpdir.length + 1)
    (herr : ((convert_file env filename fs).1).isHttpError = true) :
    ((convert_file env filename fs).2).noEntryUnder env.tmpdir = true := by
  rcases hlk : dictLookup FORMAT_MAPPING (lowerStr (pySuffix filename)) with _ | oext
  · rw [convert_file_eq_of_unsupported hlk]
    exact hfresh
  · rcases hrf : env.readFault with _ | e
    · obtain ⟨fs2, hct, hne⟩ := post_stage_cleanup_ok env filename fs hfresh hflat
      rcases hhc : handlerConversion env filename fs with ⟨op, fs'⟩
      rw [hhc] at hct
      rcases op with _ | p
      · rw [convert_file_eq_conv_none hlk hrf hhc, failWith_of_cleanup_none hct]
        exact hne
      · by_cases hex : fs'.pathExists p = true
        · exfalso
          rw [convert_file_eq_conv_some_exists hlk hrf hhc hex] at herr
          simp [ConvertResponse.isHttpError] at herr
        · have hex' : fs'.pathExists p = false := by
            revert hex; cases fs'.pathExists p <;> simp
          rw [convert_file_eq_conv_some_missing hlk hrf hhc hex',
            failWith_of_cleanup_none hct]
          exact hne
    · obtain ⟨fs2, hct, hne⟩ := prestage_cleanup_ok env fs hfresh
      rw [convert_file_eq_of_readFault hlk hrf, failWith_of_cleanup_none hct]
      exact hne

/-- Counterexample to C1 as stated: on a successful conversion the handler
returns the attachment without deleting the scratch workspace, so files of
that request's workspace (the staged input and the produced output) remain
on disk after the handler returns. -/
theorem convert_file_success_leaves_workspace :
    (convert_file envSuccess "test.doc" emptyFS).1 =
      .fileAttachment ["tmp", "scratch", "u123.docx"] "test.docx"
        "application/octet-stream" ∧
    ((convert_file envSuccess "test.doc" emptyFS).2).noEntryUnder
      ["tmp", "scratch"] = false := by
  decide

/-- Concrete instance of the amended C1: a failing conversion leaves no
workspace entry behind. -/
theorem convert_file_workspace_cleanup_on_error_paths_witness :
    ((convert_file envNoWrite "test.doc" emptyFS).2).noEntryUnder
      ["tmp", "scratch"] = true :=
  convert_file_workspace_cleanup_on_error_paths envNoWrite "test.doc" emptyFS
    (by decide) (by simp [envNoWrite]) (by decide)

/-- C8 (amended): workspace teardown removes only the entries directly
inside the scratch directory (the glob is not recursive), and it is not
best-effort: when a nested entry is still present, the final `rmdir` raises
and that cleanup fault propagates out of the handler in place of the
HTTP error response the caller would otherwise have received. -/
theorem convert_file_cleanup_failure_propagates (env : HandlerEnv)
    (filename : String) (fs : FS) (oext : String)
    (hlk : dictLookup FORMAT_MAPPING (lowerStr (pySuffix filename)) = some oext)
    (hrf : env.readFault = none)
    (hfresh : fs.noEntryUnder env.tmpdir = true)
    (hfail : (handlerConversion env filename fs).1 = none ∨
      ∃ p, (handlerConversion env filename fs).1 = some p ∧
        ((handlerConversion env filename fs).2).pathExists p = false)
    (hnest : ∃ p ∈ env.conv.written, env.tmpdir <+: p ∧
      env.tmpdir.length + 1 < p.length) :
    (convert_file env filename fs).1 = .raisedFault "OSError: Directory not empty" := by
  have hfr := (noEntryUnder_iff fs env.tmpdir).mp hfresh
  have hclean : ∃ fs2, cleanupTemp (handlerConversion env filename fs).2 env.tmpdir =
      (fs2, some "OSError: Directory not empty") := by
    rw [handlerConversion_snd]
    apply cleanupTemp_nested_fails
    · intro p hp hpre
      rcases List.mem_append.mp hp with hp | hp
      · exact absurd hpre (hfr p (List.mem_append.mpr (Or.inr hp)))
      · exact List.mem_singleton.mp hp
    · exact List.mem_append.mpr (Or.inr (List.mem_singleton.mpr rfl))
    · rcases hnest with ⟨p0, hp0w, hp0pre, hp0len⟩
      exact ⟨p0, List.mem_append.mpr (Or.inr hp0w), hp0pre, hp0len⟩
  obtain ⟨fs2, hct⟩ := hclean
  rcases hhc : handlerConversion env filename fs with ⟨op, fs'⟩
  rw [hhc] at hct hfail
  rcases hfail with hf | ⟨p, hp, hex⟩
  · have hop : op = none := hf
    subst hop
    rw [convert_file_eq_conv_none hlk hrf hhc, failWith_of_cleanup_some hct]
  · have hop : op = some p := hp
    subst hop
    rw [convert_file_eq_conv_some_missing hlk hrf hhc hex,
      failWith_of_cleanup_some hct]

/-- Counterexample to C8 as stated: with a nested entry in the workspace
the teardown fault is not absorbed - the handler's outcome is the raised
`rmdir` fault instead of the 500 "Conversion failed" response. -/
theorem convert_file_nested_entry_counterexample :
    (convert_file envNested "test.doc" emptyFS).1 =
      .raisedFault "OSError: Directory not empty" ∧
    (convert_file envNested "test.doc" emptyFS).1 ≠
      .httpError 500 conversionFailedDetail := by
  decide

/-- Concrete instance of the amended C8. -/
theorem convert_file_cleanup_failure_propagates_witness :
    (convert_file envNested "test.doc" emptyFS).1 =
      .raisedFault "OSError: Directory not empty" :=
  convert_file_cleanup_failure_propagates envNested "test.doc" emptyFS ".docx"
    (by decide) rfl (by decide) (Or.inl (by decide))
    ⟨["tmp", "scratch", "sub", "x"], by decide, by decide, by decide⟩

end LegacyOffice
